import Mathlib

/-!
# pkging/pkgtest: the conformance suite of the virtual filesystem contract

A shallow embedding of `src/pkging/pkgtest/suite.go`.

* A backend instance (`pkging.Pkger`) is a value of a state type `σ`; every
  method of the interface, and of the file handles it returns, is a state
  transformer on `σ`, collected in `Pkger`. An instance owns its whole tree:
  a method reads and writes the state of its own instance and nothing else.
* The backend factory (`Suite.gen`) is a state transformer on a world `W`,
  whatever the factory shares between its calls.
* What the suite calls and `suite.go` does not declare (the fixture `App()`,
  the helpers of `pkgutil`, `Suite.LoadFolder`, the real filesystem) is a
  parameter, collected in `Env`.
* A test function is a computation in `TestM`: it reads and writes the
  `*testing.T` it is given, may stop early (`FailNow`, the way `require`
  stops a test), and starts sub-tests with `Run`. A variable `pkg` holding an
  instance is a scope (`usingPkg`) in which the methods act on that instance.
* A Go panic (`Panic`) fails the test it happens in and kills the test binary:
  it goes through `Run` and nothing runs after it.
-/

namespace pkgtest

/-! ## Data model -/

/-- Go `error` values are observed through their message. -/
abbrev Err := String

/-- The type `here.Path` : `{Pkg, Name}`. -/
structure here.Path where
  Pkg : String
  Name : String
  deriving DecidableEq, Repr

/-- Modelled from the spec: the type `here.Info` is declared outside this file;
the spec gives it as `{Namespace, Dir}`, and the suite reads `ImportPath` and
`Dir`. -/
structure here.Info where
  ImportPath : String
  Dir : String
  deriving DecidableEq, Repr

/-- A Go `[]string`; `none` is the nil slice, which `reflect.DeepEqual` (behind
`r.Equal`) tells apart from an empty one. -/
abbrev Strings := Option (List String)

/-- The call `append(xs, x)`. -/
def Strings.append (xs : Strings) (x : String) : Strings := some (xs.getD [] ++ [x])

/-- The index expression `xs[i]`, `none` when it is out of range (a Go panic). -/
def Strings.index (xs : Strings) (i : Nat) : Option String := (xs.getD [])[i]?

/-- The value behind `os.FileInfo`: `Name()` and `ModTime()`; a `ModTime` of `0`
is the zero `time.Time`. -/
structure FileInfo where
  Name : String
  ModTime : Nat
  IsDir : Bool
  deriving DecidableEq, Repr

/-- The field `Paths` of the fixture returned by `App()`. -/
structure Paths where
  Root : Strings
  Public : Strings
  deriving DecidableEq, Repr

/-- The fixture returned by `App()`: `app.Info.ImportPath`, `app.Paths.Root`,
`app.Paths.Public`. -/
structure AppRef where
  Info : here.Info
  Paths : Paths
  deriving DecidableEq, Repr

/-! ## The testing monad -/

/-- What the suite observes of a `*testing.T`: the world, the backend instances in
scope (`loc`), the failed flag, whether a panic has killed the test binary, and
the sub-tests started from it through `Run`, in order, each with its name and
whether it passed. -/
structure T (W L : Type) where
  world : W
  loc : L
  failed : Bool
  panicked : Bool
  subs : List (String × Bool)

/-- A fresh `*testing.T`, in world `w` with instance `l` in scope. -/
def T.fresh {W L : Type} (w : W) (l : L) : T W L :=
  { world := w, loc := l, failed := false, panicked := false, subs := [] }

/-- A test body. The result `none` means that the goroutine of the test was
stopped by `FailNow`. -/
def TestM (W L α : Type) : Type := T W L → Option α × T W L

namespace TestM

variable {W L L2 α β : Type}

/-- Sequencing: the rest of the body is skipped once the test has stopped. -/
def bindM (m : TestM W L α) (f : α → TestM W L β) : TestM W L β := fun t =>
  match (m t).1 with
  | some a => f a (m t).2
  | none => (none, (m t).2)

instance : Monad (TestM W L) where
  pure a := fun t => (some a, t)
  bind := bindM

end TestM

open TestM

variable {W L L2 σ φ α β : Type}

/-- The call `t.FailNow()`: mark the test failed and stop it. -/
def FailNow : TestM W L α := fun t => (none, { t with failed := true })

/-- A Go run-time panic (an index out of range, a reflective call with the wrong
arguments): the test it happens in is failed, and the panic leaves the test
runner and kills the test binary, so that nothing runs after it. -/
def Panic : TestM W L α := fun t => (none, { t with failed := true, panicked := true })

/-- The call `t.Fatalf(...)`: log, then `FailNow`. -/
def Fatalf (_msg : String) : TestM W L α := FailNow

/-- The assertion `r.NoError(err)`. -/
def NoError (err : Option Err) : TestM W L Unit :=
  match err with
  | none => pure ()
  | some _ => FailNow

/-- The assertion `r.Error(err)`. -/
def Error (err : Option Err) : TestM W L Unit :=
  match err with
  | none => FailNow
  | some _ => pure ()

/-- The pair `v, err := call; r.NoError(err)`: the value when `err` is nil. -/
def mustOk (r : Except Err α) : TestM W L α :=
  match r with
  | .ok a => pure a
  | .error _ => FailNow

/-- The pair `_, err = call; r.Error(err)`. -/
def mustErr (r : Except Err α) : TestM W L Unit :=
  match r with
  | .ok _ => FailNow
  | .error _ => pure ()

/-- The assertion `r.Equal(expected, actual)`. -/
def Equal [DecidableEq α] (expected actual : α) : TestM W L Unit :=
  if expected = actual then pure () else FailNow

/-- The assertion `r.NotZero(v)`, for a value whose zero is `zero`. -/
def NotZero [DecidableEq α] (zero v : α) : TestM W L Unit :=
  if v = zero then FailNow else pure ()

/-- A step on the world alone. -/
def onWorld (f : W → α × W) : TestM W L α := fun t =>
  (some (f t.world).1, { t with world := (f t.world).2 })

/-- A method call on the backend instance in scope. -/
def onPkg (f : L → α × L) : TestM W L α := fun t =>
  (some (f t.loc).1, { t with loc := (f t.loc).2 })

/-- The scope of a variable `pkg` holding a backend instance: `body` runs with
the instance `pkg0` in scope; the instance is unreachable afterwards. -/
def usingPkg (pkg0 : L2) (body : TestM W L2 α) : TestM W L α := fun t =>
  let r := body { world := t.world, loc := pkg0, failed := t.failed,
                  panicked := t.panicked, subs := t.subs }
  (r.1, { world := r.2.world, loc := t.loc, failed := r.2.failed,
          panicked := r.2.panicked, subs := r.2.subs })

/-- A range loop `for _, tt := range table { body }`. -/
def forRange (table : List α) (body : α → TestM W L Unit) : TestM W L Unit :=
  match table with
  | [] => pure ()
  | tt :: rest => do
    body tt
    forRange rest body

/-- Whether a `*testing.T` is that of a failed test: the failed flag is up, or a
panic went through it. -/
def T.bad (t : T W L) : Bool := t.failed || t.panicked

/-- Whether a body, started on a fresh `*testing.T` in world `w` with instance
`l`, ends without the failed flag and without a panic. -/
def passes (m : TestM W L Unit) (w : W) (l : L) : Bool :=
  !(m (T.fresh w l)).2.bad

/-- The world a body leaves behind. -/
def worldAfter (m : TestM W L Unit) (w : W) (l : L) : W :=
  (m (T.fresh w l)).2.world

/-- The instance state a body leaves behind. -/
def locAfter (m : TestM W L Unit) (w : W) (l : L) : L :=
  (m (T.fresh w l)).2.loc

/-! ## Standard library: `strings` and `path/filepath` (slash-separated paths) -/

namespace strings

/-- The function `strings.HasPrefix`. -/
def HasPrefix (s pre : String) : Bool := pre.toList.isPrefixOf s.toList

/-- The function `strings.TrimPrefix`. -/
def TrimPrefix (s pre : String) : String :=
  if HasPrefix s pre then String.mk (s.toList.drop pre.toList.length) else s

/-- The call `strings.Replace(s, "\\", "/", -1)`. -/
def ReplaceBackslash (s : String) : String :=
  String.mk (s.toList.map fun c => if c = '\\' then '/' else c)

end strings

namespace filepath

/-- The elements of a path between its separators. -/
def elements : List Char → List (List Char)
  | [] => [[]]
  | c :: cs =>
    if c = '/' then [] :: elements cs
    else match elements cs with
      | [] => [[c]]
      | e :: es => (c :: e) :: es

/-- One turn of the loop of `Clean`, on the elements written so far (the last
one first): an empty element and `.` are dropped, `..` removes the element
before it when there is one to remove, and stays when the path is not rooted. -/
def cleanStep (rooted : Bool) (out : List (List Char)) (e : List Char) : List (List Char) :=
  if e = [] ∨ e = ['.'] then out
  else if e = ['.', '.'] then
    match out with
    | [] => if rooted then [] else [e]
    | top :: rest => if top = ['.', '.'] then (if rooted then out else e :: out) else rest
  else e :: out

/-- The elements joined by separators. -/
def joinSep : List (List Char) → List Char
  | [] => []
  | [e] => e
  | e :: es => e ++ '/' :: joinSep es

/-- The function `filepath.Clean`. -/
def Clean (path : String) : String :=
  match path.toList with
  | [] => "."
  | c :: cs =>
    let rooted := (c = '/')
    let out := ((elements (c :: cs)).foldl (cleanStep rooted) []).reverse
    if rooted then String.mk ('/' :: joinSep out)
    else if out = [] then "." else String.mk (joinSep out)

/-- The part of a path up to its last separator, the separator included. -/
def upToLastSep : List Char → List Char
  | [] => []
  | c :: cs =>
    match upToLastSep cs with
    | [] => if c = '/' then [c] else []
    | r :: rs => c :: r :: rs

/-- The function `filepath.Dir`. -/
def Dir (path : String) : String := Clean (String.mk (upToLastSep path.toList))

/-- The function `filepath.Join`, on two elements. -/
def Join (a b : String) : String :=
  if a ≠ "" then Clean (a ++ "/" ++ b)
  else if b ≠ "" then Clean b
  else ""

end filepath

/-! ## The backend interface and the environment of the suite -/

/-- A call of a `filepath.WalkFunc` visitor: the path, the file info and the
error it is handed. -/
abbrev WalkCall := String × Option FileInfo × Option Err

/-- The function `filepath.Walk` of the standard library on the real filesystem:
either it is over, with its error, or it hands a path, a file info and an
error to the visitor and goes on from the error the visitor returns. -/
inductive Walker where
  | done : Option Err → Walker
  | visit : WalkCall → (Option Err → Walker) → Walker

/-- A walk of `filepath.Walk` with visitor `fn`, whose captured variables are the
state `A`. -/
def Walker.run {A : Type}
    (fn : String → Option FileInfo → Option Err → A → Option Err × A) :
    Walker → A → Option Err × A
  | .done err, a => (err, a)
  | .visit c k, a => Walker.run fn (k (fn c.1 c.2.1 c.2.2 a).1) (fn c.1 c.2.1 c.2.2 a).2

/-- Modelled from the spec: the method `Walk` of a backend is declared outside
this file. The spec has it hand the root and its descendants to the visitor in
order, "visitor errors abort the walk and propagate": a walk is the calls the
backend is about to make, the error it returns when no call is refused, and the
instance it leaves. -/
structure Walking (σ : Type) where
  calls : List WalkCall
  err : Option Err
  after : σ

/-- The calls of a walk made one after the other, up to the first error the
visitor returns: that error, the captured variables, and the paths handed to the
visitor, in visiting order. -/
def visitCalls {A : Type}
    (fn : String → Option FileInfo → Option Err → A → Option Err × A) :
    List WalkCall → A → (Option Err × A) × List String
  | [], a => ((none, a), [])
  | c :: cs, a =>
    match (fn c.1 c.2.1 c.2.2 a).1 with
    | some e => ((some e, (fn c.1 c.2.1 c.2.2 a).2), [c.1])
    | none =>
      ((visitCalls fn cs (fn c.1 c.2.1 c.2.2 a).2).1,
        c.1 :: (visitCalls fn cs (fn c.1 c.2.1 c.2.2 a).2).2)

/-- A walk of a backend with visitor `fn`: the error of the walk and the instance,
and the captured variables. -/
def Walking.run {σ A : Type} (wk : Walking σ)
    (fn : String → Option FileInfo → Option Err → A → Option Err × A) (a : A) :
    (Option Err × σ) × A :=
  match (visitCalls fn wk.calls a).1.1 with
  | some e => ((some e, wk.after), (visitCalls fn wk.calls a).1.2)
  | none => ((wk.err, wk.after), (visitCalls fn wk.calls a).1.2)

/-- The paths a walk of a backend hands to visitor `fn`, in visiting order. -/
def Walking.handed {σ A : Type} (wk : Walking σ)
    (fn : String → Option FileInfo → Option Err → A → Option Err × A) (a : A) :
    List String :=
  (visitCalls fn wk.calls a).2

/-- The interface `pkging.Pkger`, with the methods of the `pkging.File` handles
`φ` it returns; each method acts on the state `σ` of the instance. A call
returns a value or an error: a nil value with a nil error, on which a later
method call would panic, is not a result here. -/
structure Pkger (σ φ : Type) where
  Current : σ → (here.Info × Option Err) × σ
  Info : String → σ → Except Err here.Info × σ
  Parse : String → σ → Except Err here.Path × σ
  MkdirAll : String → Nat → σ → Option Err × σ
  Create : String → σ → Except Err φ × σ
  Open : String → σ → Except Err φ × σ
  Stat : String → σ → Except Err FileInfo × σ
  Walk : String → σ → Walking σ
  Remove : String → σ → Option Err × σ
  RemoveAll : String → σ → Option Err × σ
  FileName : φ → σ → String × σ
  FilePath : φ → σ → here.Path × σ
  FileStat : φ → σ → Except Err FileInfo × σ
  FileClose : φ → σ → Option Err × σ

/-- What the suite calls and this file does not declare: the backend interface,
the fixture `App()`, `here.Path.String`, `runtime.GOOS`, the helpers
`Suite.LoadFolder` and `Suite.WriteFolder`, `pkgutil.WriteFile` and
`pkgutil.ReadFile`, the calls `ioutil.ReadAll(f)` and
`io.Copy(f, strings.NewReader(s))` on a file handle, and the real filesystem
(`ioutil.TempDir`, `filepath.Walk`), which is a fixed oracle. -/
structure Env (σ φ : Type) where
  pkg : Pkger σ φ
  App : Except Err AppRef
  PathString : here.Path → String
  GOOS : String
  LoadFolder : σ → Option Err × σ
  WriteFolder : String → Option Err
  WriteFile : String → String → Nat → σ → Option Err × σ
  ReadFile : String → σ → Except Err String × σ
  ReadAll : φ → σ → Except Err String × σ
  Copy : φ → String → σ → Except Err Nat × σ
  TempDir : Except Err String
  fsWalk : String → Walker

/-! ## The suite -/

/-- The type `Suite`. A nil `gen` is `none`. -/
structure Suite (W σ : Type) where
  Name : String
  gen : Option (W → Except Err σ × W)

/-- The method `Suite.Make`. -/
def Suite.Make (s : Suite W σ) (w : W) : Except Err σ × W :=
  match s.gen with
  | none => (.error "missing generator function", w)
  | some gen => gen w

/-- The function `NewSuite`: the suite and a nil error. -/
def NewSuite (name : String) (fn : Option (W → Except Err σ × W)) :
    Suite W σ × Option Err :=
  ({ Name := name, gen := fn }, none)

/-- The method `Suite.Run`: `t.Run(name, fn)`. The sub-test gets a `*testing.T`
of its own; when it is over its failure is the failure of its parent too, and
the parent goes on. A panic in the sub-test fails it and kills the test binary:
the parent does not go on. -/
def Suite.Run (_s : Suite W σ) (name : String) (fn : TestM W L Unit) : TestM W L Unit :=
  fun t =>
    let r := fn (T.fresh t.world t.loc)
    (if r.2.panicked then none else some (),
      { world := r.2.world, loc := r.2.loc,
        failed := t.failed || r.2.bad,
        panicked := t.panicked || r.2.panicked,
        subs := t.subs ++ [(name, !r.2.bad)] })

/-! ## The scenarios -/

section scenarios

variable (env : Env σ φ) (s : Suite W σ)

/-- The method `Suite.Test_Create`. -/
def Test_Create : TestM W Unit Unit := do
  let pkg ← mustOk (← onWorld s.Make)
  let app ← mustOk env.App
  let table := ["/public/index.html", app.Info.ImportPath ++ ":" ++ "/public/index.html"]
  usingPkg pkg <| forRange table fun tt => s.Run tt do
    let pt ← mustOk (← onPkg (env.pkg.Parse tt))
    NoError (← onPkg (env.pkg.MkdirAll (filepath.Dir pt.Name) 0o755))
    let f ← mustOk (← onPkg (env.pkg.Create pt.Name))
    Equal pt.Name (← onPkg (env.pkg.FileName f))
    let fi ← mustOk (← onPkg (env.pkg.FileStat f))
    NoError (← onPkg (env.pkg.FileClose f))
    Equal pt.Name fi.Name
    NotZero 0 fi.ModTime
    NoError (← onPkg (env.pkg.RemoveAll (env.PathString pt)))

/-- The table of `Suite.Test_Create_No_MkdirAll`, for the namespace `ip`. -/
def noMkdirAllTable (ip : String) : List String :=
  let mould := "/easy/listening/file.under"
  [mould, ip ++ ":" ++ mould, filepath.Dir mould, ip ++ ":" ++ filepath.Dir mould]

/-- The sub-test of `Suite.Test_Create_No_MkdirAll` for the table entry `tt`. -/
def createNoMkdirAllCase (tt : String) : TestM W Unit Unit := do
  let pkg ← mustOk (← onWorld s.Make)
  usingPkg pkg do
    let pt ← mustOk (← onPkg (env.pkg.Parse tt))
    mustErr (← onPkg (env.pkg.Create pt.Name))

/-- The method `Suite.Test_Create_No_MkdirAll`. -/
def Test_Create_No_MkdirAll : TestM W Unit Unit := do
  let app ← mustOk env.App
  let ip := app.Info.ImportPath
  forRange (noMkdirAllTable ip) fun tt => s.Run tt (createNoMkdirAllCase env s tt)

/-- The method `Suite.Test_Current`. -/
def Test_Current : TestM W Unit Unit := do
  let pkg ← mustOk (← onWorld s.Make)
  usingPkg pkg do
    let info ← onPkg env.pkg.Current
    NoError info.2
    NotZero (here.Info.mk "" "") info.1

/-- The method `Suite.Test_Info`. -/
def Test_Info : TestM W Unit Unit := do
  let pkg ← mustOk (← onWorld s.Make)
  usingPkg pkg do
    let cur ← onPkg env.pkg.Current
    NoError cur.2
    let info ← mustOk (← onPkg (env.pkg.Info cur.1.ImportPath))
    NotZero (here.Info.mk "" "") info

/-- The method `Suite.Test_MkdirAll`. -/
def Test_MkdirAll : TestM W Unit Unit := do
  let app ← mustOk env.App
  let ip := app.Info.ImportPath
  let mould := "/public/index.html"
  let table := [mould, ip ++ ":" ++ mould, filepath.Dir mould, ip ++ ":" ++ filepath.Dir mould]
  forRange table fun tt => s.Run tt do
    let pkg ← mustOk (← onWorld s.Make)
    usingPkg pkg do
      let pt ← mustOk (← onPkg (env.pkg.Parse tt))
      let dir := filepath.Dir pt.Name
      NoError (← onPkg (env.pkg.MkdirAll dir 0o755))
      let fi ← mustOk (← onPkg (env.pkg.Stat dir))
      let dir := if env.GOOS = "windows" then strings.ReplaceBackslash dir else dir
      Equal dir fi.Name
      NotZero 0 fi.ModTime
      NoError (← onPkg (env.pkg.RemoveAll (env.PathString pt)))

/-- The table of `Suite.Test_Open_File`, for the namespace `ip`. -/
def openFileTable (ip : String) : List String :=
  let mould := "/public/index.html"
  [mould, ip ++ ":" ++ mould]

/-- The sub-test of `Suite.Test_Open_File` for the table entry `tt`. The result
of `pkgutil.WriteFile` is dropped, as in the source. -/
def openFileCase (tt : String) : TestM W Unit Unit := do
  let pkg ← mustOk (← onWorld s.Make)
  usingPkg pkg do
    let pt ← mustOk (← onPkg (env.pkg.Parse tt))
    NoError (← onPkg (env.pkg.RemoveAll (env.PathString pt)))
    NoError (← onPkg (env.pkg.MkdirAll (filepath.Dir pt.Name) 0o755))
    let body := "!" ++ env.PathString pt
    let _ ← onPkg (env.WriteFile tt body 0o644)
    let f ← mustOk (← onPkg (env.pkg.Open tt))
    Equal pt.Name (← onPkg (env.pkg.FilePath f)).Name
    let b ← mustOk (← onPkg (env.ReadAll f))
    Equal body b
    let b ← mustOk (← onPkg (env.ReadFile tt))
    Equal body b
    NoError (← onPkg (env.pkg.FileClose f))

/-- The method `Suite.Test_Open_File`. -/
def Test_Open_File : TestM W Unit Unit := do
  let app ← mustOk env.App
  let ip := app.Info.ImportPath
  forRange (openFileTable ip) fun tt => s.Run tt (openFileCase env s tt)

/-- The table of `Suite.Test_Parse`, for the `here.Info` returned by `Current`. -/
def parseTable (cur : here.Info) : List (String × here.Path) :=
  let ip := cur.ImportPath
  let mould := "/public/index.html"
  [ (mould, ⟨ip, mould⟩),
    (filepath.Join cur.Dir mould, ⟨ip, mould⟩),
    (ip ++ ":" ++ mould, ⟨ip, mould⟩),
    (ip, ⟨ip, "/"⟩) ]

/-- The sub-test of `Suite.Test_Parse` for the table entry `tt`. -/
def parseCase (tt : String × here.Path) : TestM W σ Unit := do
  let pt ← mustOk (← onPkg (env.pkg.Parse tt.1))
  Equal tt.2 pt

/-- The method `Suite.Test_Parse`. The error of `pkg.Current()` is not looked at,
as in the source. -/
def Test_Parse : TestM W Unit Unit := do
  let pkg ← mustOk (← onWorld s.Make)
  usingPkg pkg do
    let cur ← onPkg env.pkg.Current
    forRange (parseTable cur.1) fun tt => s.Run tt.1 (parseCase env tt)

/-- The table of `Suite.Test_Stat_Error`, for the namespace `ip`. -/
def statErrorTable (ip : String) : List String :=
  ["/dontexist", ip, ip ++ ":", ip ++ ":" ++ "/dontexist"]

/-- The sub-test of `Suite.Test_Stat_Error` for the table entry `tt`. -/
def statErrorCase (tt : String) : TestM W σ Unit := do
  let pt ← mustOk (← onPkg (env.pkg.Parse tt))
  NoError (← onPkg (env.pkg.RemoveAll (env.PathString pt)))
  mustErr (← onPkg (env.pkg.Stat tt))

/-- The method `Suite.Test_Stat_Error`. -/
def Test_Stat_Error : TestM W Unit Unit := do
  let pkg ← mustOk (← onWorld s.Make)
  let app ← mustOk env.App
  let ip := app.Info.ImportPath
  usingPkg pkg <| forRange (statErrorTable ip) fun tt => s.Run tt (statErrorCase env tt)

/-- The method `Suite.Test_Stat_Dir`. -/
def Test_Stat_Dir : TestM W Unit Unit := do
  let pkg ← mustOk (← onWorld s.Make)
  let app ← mustOk env.App
  let ip := app.Info.ImportPath
  let dir ← (match app.Paths.Public.index 1 with
    | some dir => pure dir
    | none => Panic)
  let table := [ip, dir, ip ++ ":" ++ dir]
  usingPkg pkg <| forRange table fun tt => s.Run tt do
    let pt ← mustOk (← onPkg (env.pkg.Parse tt))
    NoError (← onPkg (env.pkg.RemoveAll (env.PathString pt)))
    NoError (← onPkg (env.pkg.MkdirAll pt.Name 0o755))
    let info ← mustOk (← onPkg (env.pkg.Stat tt))
    Equal pt.Name info.Name

/-- The method `Suite.Test_Stat_File`. -/
def Test_Stat_File : TestM W Unit Unit := do
  let app ← mustOk env.App
  let ip := app.Info.ImportPath
  let mould := "/public/index.html"
  let table := [mould, ip ++ ":" ++ mould]
  forRange table fun tt => s.Run tt do
    let pkg ← mustOk (← onWorld s.Make)
    usingPkg pkg do
      let pt ← mustOk (← onPkg (env.pkg.Parse tt))
      NoError (← onPkg (env.pkg.RemoveAll (env.PathString pt)))
      NoError (← onPkg (env.pkg.MkdirAll (filepath.Dir pt.Name) 0o755))
      let f ← mustOk (← onPkg (env.pkg.Create tt))
      let _ ← mustOk (← onPkg (env.Copy f ("!" ++ env.PathString pt)))
      NoError (← onPkg (env.pkg.FileClose f))
      let info ← mustOk (← onPkg (env.pkg.Stat tt))
      Equal pt.Name info.Name

/-- The visitor `Suite.Test_Walk` gives to `filepath.Walk`; its captured
variables are `pkg` and `goact`. -/
def goVisit (tdir : String) (path : String) (_info : Option FileInfo) (err : Option Err)
    (st : σ × Strings) : Option Err × (σ × Strings) :=
  match err with
  | some e => (some e, st)
  | none =>
    let path := strings.TrimPrefix path tdir
    let path := if path = "" ∨ path = "." then "/" else path
    match (env.pkg.Parse path st.1).1 with
    | .error e => (some e, ((env.pkg.Parse path st.1).2, st.2))
    | .ok pt => (none, ((env.pkg.Parse path st.1).2, st.2.append (env.PathString pt)))

/-- The visitor `Suite.Test_Walk` gives to `pkg.Walk`; its captured variable is
`act`. -/
def actVisit (path : String) (_info : Option FileInfo) (err : Option Err)
    (act : Strings) : Option Err × Strings :=
  match err with
  | some e => (some e, act)
  | none => (none, act.append path)

/-- The call `filepath.Walk(root, ...)` of `Suite.Test_Walk`, from `var goact
[]string`: the error of the walk and `goact`, and the instance afterwards. -/
def goWalk (tdir root : String) (pkg : σ) : (Option Err × Strings) × σ :=
  let r := (env.fsWalk root).run (goVisit env tdir) (pkg, none)
  ((r.1, r.2.2), r.2.1)

/-- The call `pkg.Walk(tt.in, ...)` of `Suite.Test_Walk`, from `var act []string`:
the error of the walk and `act`, and the instance afterwards. -/
def pkgWalk (root : String) (pkg : σ) : (Option Err × Strings) × σ :=
  let r := (env.pkg.Walk root pkg).run actVisit none
  ((r.1.1, r.2), r.1.2)

/-- The table of `Suite.Test_Walk`, for the fixture `app`. -/
def walkTable (app : AppRef) : List (String × Strings) :=
  [("/", app.Paths.Root), ("/public", app.Paths.Public)]

/-- The sub-test of `Suite.Test_Walk` for the table entry `tt`. Its first four
assertions go through the `require` of the enclosing test: a failure there
fails the enclosing test and stops this goroutine, which `testing` reports as a
failure of the sub-test as well. The deferred `os.RemoveAll(tdir)` has no
result. -/
def walkCase (tt : String × Strings) : TestM W σ Unit := do
  let tdir ← mustOk env.TempDir
  NoError (env.WriteFolder tdir)
  let go ← onPkg (goWalk env tdir (filepath.Join tdir tt.1))
  NoError go.1
  Equal tt.2 go.2
  let act ← onPkg (pkgWalk env tt.1)
  NoError act.1
  Equal tt.2 act.2

/-- The method `Suite.Test_Walk`. -/
def Test_Walk : TestM W Unit Unit := do
  let pkg ← mustOk (← onWorld s.Make)
  usingPkg pkg do
    NoError (← onPkg env.LoadFolder)
    let app ← mustOk env.App
    forRange (walkTable app) fun tt => s.Run tt.1 (walkCase env tt)

/-- The table of `Suite.Test_Remove`, for the namespace `ip`. -/
def removeTable (ip : String) : List String :=
  ["/public/images/img1.png", ip ++ ":/public/images/img1.png"]

/-- The sub-test of `Suite.Test_Remove` for the table entry `tt`. -/
def removeCase (tt : String) : TestM W Unit Unit := do
  let pkg ← mustOk (← onWorld s.Make)
  usingPkg pkg do
    NoError (← onPkg env.LoadFolder)
    let _ ← mustOk (← onPkg (env.pkg.Stat tt))
    NoError (← onPkg (env.pkg.Remove tt))
    mustErr (← onPkg (env.pkg.Stat tt))
    Error (← onPkg (env.pkg.Remove "unknown"))

/-- The first lines of `Suite.Test_Remove` and `Suite.Test_RemoveAll`: the
namespace `cur.ImportPath` of an instance used for nothing else. -/
def currentImportPath : TestM W Unit String := do
  let pkg ← mustOk (← onWorld s.Make)
  let cur ← usingPkg pkg do
    let cur ← onPkg env.pkg.Current
    NoError cur.2
    pure cur.1
  pure cur.ImportPath

/-- The method `Suite.Test_Remove`. -/
def Test_Remove : TestM W Unit Unit := do
  let ip ← currentImportPath env s
  forRange (removeTable ip) fun tt => s.Run tt (removeCase env s tt)

/-- The table of `Suite.Test_RemoveAll`, for the namespace `ip`. -/
def removeAllTable (ip : String) : List String :=
  ["/public", ip ++ ":/public"]

/-- The sub-test of `Suite.Test_RemoveAll` for the table entry `tt`. -/
def removeAllCase (tt : String) : TestM W Unit Unit := do
  let pkg ← mustOk (← onWorld s.Make)
  usingPkg pkg do
    NoError (← onPkg env.LoadFolder)
    let _ ← mustOk (← onPkg (env.pkg.Stat tt))
    NoError (← onPkg (env.pkg.RemoveAll tt))
    mustErr (← onPkg (env.pkg.Stat tt))

/-- The method `Suite.Test_RemoveAll`. -/
def Test_RemoveAll : TestM W Unit Unit := do
  let ip ← currentImportPath env s
  forRange (removeAllTable ip) fun tt => s.Run tt (removeAllCase env s tt)

end scenarios

/-! ## Discovery: `Suite.Test` -/

/-- The value `m.Func` of a `reflect.Method` of `Suite`: a scenario, of
signature `func(Suite, *testing.T)`, or a method of another signature. -/
inductive MethodFunc (W σ : Type) where
  | scenario : (Suite W σ → TestM W Unit Unit) → MethodFunc W σ
  | other : MethodFunc W σ

/-- A `reflect.Method`. -/
structure Method (W σ : Type) where
  Name : String
  Func : MethodFunc W σ

/-- The call `m.Func.Call([]reflect.Value{reflect.ValueOf(s), reflect.ValueOf(st)})`. -/
def Method.Call (m : Method W σ) (s : Suite W σ) : TestM W Unit Unit :=
  match m.Func with
  | .scenario f => f s
  | .other => Panic

/-- The method `Suite.sub`. -/
def Suite.sub (s : Suite W σ) (m : Method W σ) : TestM W Unit Unit :=
  s.Run (s.Name ++ "/" ++ m.Name) (m.Call s)

/-- The loop `for i := 0; i < rt.NumMethod(); i++` of `Suite.Test`, from index `i`
with `n` turns left to take. -/
def Suite.testLoop (s : Suite W σ) (rt : List (Method W σ)) : Nat → Nat → TestM W Unit Unit
  | 0, _ => pure ()
  | n + 1, i =>
    match rt[i]? with
    | none => pure ()
    | some m =>
      if !strings.HasPrefix m.Name "Test_" then s.testLoop rt n (i + 1)
      else do
        s.sub m
        s.testLoop rt n (i + 1)

/-- The method `Suite.Test`, over the method table `rt` of the type of `s` (what
`reflect.ValueOf(s).Type()` gives: `rt.NumMethod()` and `rt.Method(i)`). -/
def Suite.Test (s : Suite W σ) (rt : List (Method W σ)) : TestM W Unit Unit := do
  if rt.length = 0 then
    Fatalf ("something went wrong wrong with " ++ s.Name)
  s.testLoop rt rt.length 0

/-- The method table of `Suite`: its exported methods, sorted by name, as
`reflect` lists them. `LoadFolder` and `WriteFolder` are the two methods the
scenarios call that this file does not declare. -/
def suiteMethods (env : Env σ φ) : List (Method W σ) :=
  [ ⟨"LoadFolder", .other⟩,
    ⟨"Make", .other⟩,
    ⟨"Run", .other⟩,
    ⟨"Test", .other⟩,
    ⟨"Test_Create", .scenario (Test_Create env)⟩,
    ⟨"Test_Create_No_MkdirAll", .scenario (Test_Create_No_MkdirAll env)⟩,
    ⟨"Test_Current", .scenario (Test_Current env)⟩,
    ⟨"Test_Info", .scenario (Test_Info env)⟩,
    ⟨"Test_MkdirAll", .scenario (Test_MkdirAll env)⟩,
    ⟨"Test_Open_File", .scenario (Test_Open_File env)⟩,
    ⟨"Test_Parse", .scenario (Test_Parse env)⟩,
    ⟨"Test_Remove", .scenario (Test_Remove env)⟩,
    ⟨"Test_RemoveAll", .scenario (Test_RemoveAll env)⟩,
    ⟨"Test_Stat_Dir", .scenario (Test_Stat_Dir env)⟩,
    ⟨"Test_Stat_Error", .scenario (Test_Stat_Error env)⟩,
    ⟨"Test_Stat_File", .scenario (Test_Stat_File env)⟩,
    ⟨"Test_Walk", .scenario (Test_Walk env)⟩,
    ⟨"WriteFolder", .other⟩ ]

/-- A whole run of `Suite.Test` on a fresh `*testing.T` in world `w`. -/
def Suite.runTest (s : Suite W σ) (rt : List (Method W σ)) (w : W) : T W Unit :=
  (s.Test rt (T.fresh w ())).2

/-- A factory that fails with the message `Suite.Make` uses when it has no factory. -/
def sameMessageFactory : Unit → Except Err Unit × Unit :=
  fun w => (.error "missing generator function", w)

/-- Whether every sub-test of a table passes, each one started in the world and
on the instance its predecessor left. -/
def allPass (body : α → TestM W L Unit) : List α → W → L → Bool
  | [], _, _ => true
  | tt :: rest, w, l =>
    passes (body tt) w l &&
      allPass body rest (worldAfter (body tt) w l) (locAfter (body tt) w l)

/-- The world after one more call of `Suite.Make`. -/
def Suite.nextWorld (s : Suite W σ) (w : W) : W := (s.Make w).2

/-- On a fresh instance from the factory, in world `w`: `Parse` of the reference
succeeds and `Create` of the parsed name, with no `MkdirAll` before it, returns
an error. -/
def createRejected (env : Env σ φ) (s : Suite W σ) (ref : String) (w : W) : Prop :=
  ∃ pkg, (s.Make w).1 = .ok pkg ∧
    ∃ pt, (env.pkg.Parse ref pkg).1 = .ok pt ∧
      ∃ e, (env.pkg.Create pt.Name (env.pkg.Parse ref pkg).2).1 = .error e

/-- On a fresh instance from the factory, in world `w`: `Parse` of the reference
succeeds; after `RemoveAll` of the parsed reference, `MkdirAll` of the parent
and `pkgutil.WriteFile` of the body `"!" + pt.String()`, `Open` of the same
reference succeeds, the `Path().Name` of the handle is the parsed name, reading
the handle to the end yields the body, `pkgutil.ReadFile` of the same
reference yields the body, and the handle closes. -/
def readsBack (env : Env σ φ) (s : Suite W σ) (ref : String) (w : W) : Prop :=
  ∃ pkg, (s.Make w).1 = .ok pkg ∧
  ∃ pt p1, env.pkg.Parse ref pkg = (.ok pt, p1) ∧
  ∃ p2, env.pkg.RemoveAll (env.PathString pt) p1 = (none, p2) ∧
  ∃ p3, env.pkg.MkdirAll (filepath.Dir pt.Name) 0o755 p2 = (none, p3) ∧
  ∃ f p5, env.pkg.Open ref (env.WriteFile ref ("!" ++ env.PathString pt) 0o644 p3).2
      = (.ok f, p5) ∧
  ∃ fp p6, env.pkg.FilePath f p5 = (fp, p6) ∧ fp.Name = pt.Name ∧
  ∃ p7, env.ReadAll f p6 = (.ok ("!" ++ env.PathString pt), p7) ∧
  ∃ p8, env.ReadFile ref p7 = (.ok ("!" ++ env.PathString pt), p8) ∧
  (env.pkg.FileClose f p8).1 = none

/-- The instance after `Parse` of the references `refs`, one after the other. -/
def afterParse (env : Env σ φ) (refs : List String) (pkg : σ) : σ :=
  refs.foldl (fun p ref => (env.pkg.Parse ref p).2) pkg

/-- On the instance `pkg`: `Parse` of the reference succeeds and returns `pt`. -/
def parsesTo (env : Env σ φ) (ref : String) (pt : here.Path) (pkg : σ) : Prop :=
  (env.pkg.Parse ref pkg).1 = .ok pt

/-- The instance a sub-test of `Suite.Test_Walk` leaves. -/
def afterWalkCase (env : Env σ φ) (tdir root : String) (pkg : σ) : σ :=
  (pkgWalk env root (goWalk env tdir (filepath.Join tdir root) pkg).2).2

/-- On the instance `pkg`, for the walk root `root` and the list `exp` of the
fixture: the real-filesystem walk of the equivalent directory ends without an
error and `goact`, its paths mapped through `Parse` to their reference strings,
is `exp`; the walk of the backend ends without an error and `act`, the paths
its visitor appends, is `exp`; and the paths the backend hands to the visitor,
in visiting order, are the elements of `goact`. -/
def walkAgrees (env : Env σ φ) (tdir root : String) (exp : Strings) (pkg : σ) : Prop :=
  (goWalk env tdir (filepath.Join tdir root) pkg).1 = (none, exp) ∧
  (pkgWalk env root (goWalk env tdir (filepath.Join tdir root) pkg).2).1 = (none, exp) ∧
  (env.pkg.Walk root (goWalk env tdir (filepath.Join tdir root) pkg).2).handed actVisit none
    = (goWalk env tdir (filepath.Join tdir root) pkg).1.2.getD []

/-- On a fresh instance from the factory, in world `w`, loaded from the fixture:
`Stat` of the target succeeds, the removal `remove` of the target succeeds, and
`Stat` of the same target fails right after it. -/
def statRemoveStat (env : Env σ φ) (s : Suite W σ) (remove : String → σ → Option Err × σ)
    (ref : String) (w : W) : Prop :=
  ∃ pkg, (s.Make w).1 = .ok pkg ∧
  ∃ p1, env.LoadFolder pkg = (none, p1) ∧
  ∃ fi p2, env.pkg.Stat ref p1 = (.ok fi, p2) ∧
  ∃ p3, remove ref p2 = (none, p3) ∧
  ∃ e p4, env.pkg.Stat ref p3 = (.error e, p4)

/-- A run of the scenarios `scs`, one after the other, as `Suite.Test` runs them,
on a fresh `*testing.T` in world `w`. -/
def Suite.runScenarios (s : Suite W σ) (scs : List (String × (Suite W σ → TestM W Unit Unit)))
    (w : W) : T W Unit :=
  ((forRange scs fun sc => s.Run (s.Name ++ "/" ++ sc.1) (sc.2 s)) (T.fresh w ())).2

namespace mem

/-- An entry of the tree: its absolute path, whether it is a directory, its bytes. -/
structure Entry where
  name : String
  isDir : Bool
  data : String
  deriving DecidableEq, Repr

/-- An instance: the entries of its tree, in lexical order of their paths. -/
structure FS where
  entries : List Entry
  deriving DecidableEq, Repr

/-- The namespace of the fixture. -/
def ip : String := "app"

/-- The real root directory of the namespace. -/
def dir : String := "/src"

/-- Lexical order on paths. -/
def ltChars : List Char → List Char → Bool
  | [], [] => false
  | [], _ :: _ => true
  | _ :: _, [] => false
  | a :: as, b :: bs => if a.toNat < b.toNat then true else if a = b then ltChars as bs else false

/-- A reference without its leading `app:` segments, and whether it had one. -/
def stripNs : List Char → List Char × Bool
  | 'a' :: 'p' :: 'p' :: ':' :: rest => ((stripNs rest).1, true)
  | cs => (cs, false)

/-- The grammar of references. A reference `app:` with an empty path is the root
of the namespace when `lenient`, and an error otherwise. -/
def parseRef (lenient : Bool) (raw : String) : Except Err here.Path :=
  if raw = ip then .ok ⟨ip, "/"⟩
  else
    let r := stripNs raw.toList
    let name := strings.TrimPrefix (String.mk r.1) dir
    match name.toList with
    | [] => if r.2 && lenient then .ok ⟨ip, "/"⟩ else .error ("could not parse " ++ raw)
    | c :: _ => if c = '/' then .ok ⟨ip, name⟩ else .error ("could not parse " ++ raw)

/-- The entry at a path. -/
def lookup (fs : FS) (name : String) : Option Entry :=
  fs.entries.find? fun e => e.name = name

/-- Whether `name` is `root` or below it. -/
def under (root name : String) : Bool :=
  name = root || root = "/" || strings.HasPrefix name (root ++ "/")

/-- An entry put at its place in the order; an entry already there is replaced. -/
def insertEntry (e : Entry) : List Entry → List Entry
  | [] => [e]
  | x :: xs =>
    if x.name = e.name then e :: xs
    else if ltChars e.name.toList x.name.toList then e :: x :: xs
    else x :: insertEntry e xs

/-- The ancestors of a path and the path itself, the root first. -/
def ancestors (name : String) : List String :=
  (((filepath.elements name.toList).filter fun e => e ≠ []).inits.map
    fun es => String.mk ('/' :: filepath.joinSep es))

/-- The metadata of an entry. -/
def infoOf (e : Entry) : FileInfo := ⟨e.name, 1, e.isDir⟩

/-- The walk of a list of entries: each is handed to the visitor with no error. -/
def walkEntries (fs : FS) (es : List Entry) : Walking FS where
  calls := es.map fun e => (ip ++ ":" ++ e.name, some (infoOf e), none)
  err := none
  after := fs

/-- The tree `Suite.LoadFolder` loads. -/
def fixture : List Entry :=
  [ ⟨"/", true, ""⟩, ⟨"/public", true, ""⟩, ⟨"/public/images", true, ""⟩,
    ⟨"/public/images/img1.png", false, "png"⟩, ⟨"/public/index.html", false, "<html>"⟩ ]

/-- An operation on a reference: parse it, then act on the parsed name. -/
def withRef {α : Type} (lenient : Bool) (raw : String) (fs : FS)
    (f : String → Except Err α × FS) : Except Err α × FS :=
  match parseRef lenient raw with
  | .error e => (.error e, fs)
  | .ok pt => f pt.Name

/-- The error of a result. -/
def errOf {α : Type} (r : Except Err α × FS) : Option Err × FS :=
  match r.1 with
  | .error e => (some e, r.2)
  | .ok _ => (none, r.2)

/-- The method `Create` of the backend: the parent must be a directory. -/
def create (lenient : Bool) (raw : String) (fs : FS) : Except Err here.Path × FS :=
  withRef lenient raw fs fun name =>
    match lookup fs (filepath.Dir name) with
    | some parent =>
      if parent.isDir then (.ok ⟨ip, name⟩, ⟨insertEntry ⟨name, false, ""⟩ fs.entries⟩)
      else (.error "not a directory", fs)
    | none => (.error "no such directory", fs)

/-- The in-memory backend. -/
def pkger (lenient : Bool) : Pkger FS here.Path where
  Current := fun fs => ((⟨ip, dir⟩, none), fs)
  Info := fun ns fs => (if ns = ip then .ok ⟨ip, dir⟩ else .error "unknown namespace", fs)
  Parse := fun raw fs => (parseRef lenient raw, fs)
  MkdirAll := fun raw _ fs => errOf <| withRef lenient raw fs fun name =>
    (.ok (), ⟨(ancestors name).foldl (fun es a =>
      match es.find? fun e => e.name = a with
      | some _ => es
      | none => insertEntry ⟨a, true, ""⟩ es) fs.entries⟩)
  Create := create lenient
  Open := fun raw fs => withRef lenient raw fs fun name =>
    match lookup fs name with
    | some e => if e.isDir then (.error "is a directory", fs) else (.ok ⟨ip, name⟩, fs)
    | none => (.error "file does not exist", fs)
  Stat := fun raw fs => withRef lenient raw fs fun name =>
    match lookup fs name with
    | some e => (.ok (infoOf e), fs)
    | none => (.error "file does not exist", fs)
  Walk := fun raw fs =>
    match parseRef lenient raw with
    | .error e => ⟨[], some e, fs⟩
    | .ok pt =>
      match lookup fs pt.Name with
      | none => ⟨[], some "file does not exist", fs⟩
      | some _ => walkEntries fs (fs.entries.filter fun e => under pt.Name e.name)
  Remove := fun raw fs => errOf <| withRef lenient raw fs fun name =>
    match lookup fs name with
    | none => (.error "file does not exist", fs)
    | some _ =>
      if (fs.entries.filter fun e => under name e.name).length = 1 then
        (.ok (), ⟨fs.entries.filter fun e => e.name ≠ name⟩)
      else (.error "directory not empty", fs)
  RemoveAll := fun raw fs => errOf <| withRef lenient raw fs fun name =>
    (.ok (), ⟨fs.entries.filter fun e => !under name e.name⟩)
  FileName := fun f fs => (f.Name, fs)
  FilePath := fun f fs => (f, fs)
  FileStat := fun f fs =>
    match lookup fs f.Name with
    | some e => (.ok (infoOf e), fs)
    | none => (.error "file does not exist", fs)
  FileClose := fun _ fs => (none, fs)

/-- The bytes of the file behind a handle or a reference. -/
def readAt (fs : FS) (name : String) : Except Err String × FS :=
  match lookup fs name with
  | some e => if e.isDir then (.error "is a directory", fs) else (.ok e.data, fs)
  | none => (.error "file does not exist", fs)

/-- The bytes of a file replaced. -/
def writeAt (fs : FS) (name data : String) : FS :=
  ⟨fs.entries.map fun e => if e.name = name then { e with data := data } else e⟩

/-- The fixture `App()`. -/
def app : AppRef where
  Info := ⟨ip, dir⟩
  Paths :=
    { Root := some (fixture.map fun e => ip ++ ":" ++ e.name)
      Public := some ((fixture.filter fun e => under "/public" e.name).map
        fun e => ip ++ ":" ++ e.name) }

/-- The directory `ioutil.TempDir` returns. -/
def tdir : String := "/tmp/w"

/-- The real filesystem: `filepath.Walk` from `root` over the tree written to the
temporary directory, in lexical order. -/
def fsWalk (root : String) : Walker :=
  let rec go : List String → Walker
    | [] => .done none
    | path :: rest => .visit (path, none, none) fun ret =>
      match ret with
      | some err => .done (some err)
      | none => go rest
  match (fixture.filter fun e => under root (filepath.Join tdir e.name)).map
      fun e => filepath.Join tdir e.name with
  | [] => .visit (root, none, some "lstat: no such file or directory") fun ret => .done ret
  | paths => go paths

/-- The environment of the suite over the in-memory backend. -/
def env (lenient : Bool) : Env FS here.Path where
  pkg := pkger lenient
  App := .ok app
  PathString := fun pt => pt.Pkg ++ ":" ++ pt.Name
  GOOS := "linux"
  LoadFolder := fun _ => (none, ⟨fixture⟩)
  WriteFolder := fun _ => none
  WriteFile := fun raw data _ fs =>
    match create lenient raw fs with
    | (.ok f, fs1) => (none, writeAt fs1 f.Name data)
    | (.error e, fs1) => (some e, fs1)
  ReadFile := fun raw fs => withRef lenient raw fs fun name => readAt fs name
  ReadAll := fun f fs => readAt fs f.Name
  Copy := fun f data fs => (.ok data.length, writeAt fs f.Name data)
  TempDir := .ok tdir
  fsWalk := fsWalk

/-- A factory of fresh instances, holding the root directory alone; the world
counts its calls. -/
def suite : Suite Nat FS := (NewSuite "mem" (some fun n => (.ok ⟨[⟨"/", true, ""⟩]⟩, n + 1))).1

/-- A factory that is not one of independent fresh instances: it gives an
instance on its first call only. -/
def onceSuite : Suite Nat FS :=
  (NewSuite "once" (some fun n =>
    (if n = 0 then .ok ⟨[⟨"/", true, ""⟩]⟩ else .error "out of instances", n + 1))).1

end mem

/-! ## Running a computation: unfolding lemmas -/

theorem bind_run (m : TestM W L α) (f : α → TestM W L β) (t : T W L) :
    (m >>= f) t = match (m t).1 with
      | some a => f a (m t).2
      | none => (none, (m t).2) := rfl

@[simp] theorem forRange_nil (body : α → TestM W L Unit) :
    forRange [] body = pure () := rfl

@[simp] theorem forRange_cons (tt : α) (rest : List α) (body : α → TestM W L Unit) :
    forRange (tt :: rest) body = (body tt >>= fun _ => forRange rest body) := rfl

@[simp] theorem T.fresh_eq (w : W) (l : L) :
    T.fresh w l = { world := w, loc := l, failed := false, panicked := false, subs := [] } := rfl

@[simp] theorem T.bad_eq (t : T W L) : t.bad = (t.failed || t.panicked) := rfl

section steps

variable (t : T W L)

@[simp] theorem pure_run (a : α) : (pure a : TestM W L α) t = (some a, t) := rfl

@[simp] theorem pure_bind_run (a : α) (k : α → TestM W L β) :
    ((pure a : TestM W L α) >>= k) t = k a t := rfl

@[simp] theorem FailNow_run : (FailNow : TestM W L α) t = (none, { t with failed := true }) := rfl

@[simp] theorem FailNow_bind (k : α → TestM W L β) :
    ((FailNow : TestM W L α) >>= k) t = (none, { t with failed := true }) := rfl

@[simp] theorem onPkg_bind (f : L → α × L) (k : α → TestM W L β) :
    (onPkg f >>= k) t = k (f t.loc).1 { t with loc := (f t.loc).2 } := rfl

@[simp] theorem onWorld_bind (f : W → α × W) (k : α → TestM W L β) :
    (onWorld f >>= k) t = k (f t.world).1 { t with world := (f t.world).2 } := rfl

@[simp] theorem mustOk_ok_bind (a : α) (k : α → TestM W L β) :
    (mustOk (.ok a) >>= k) t = k a t := rfl

@[simp] theorem mustOk_error_bind (e : Err) (k : α → TestM W L β) :
    (mustOk (.error e : Except Err α) >>= k) t = (none, { t with failed := true }) := rfl

@[simp] theorem mustOk_ok_run (a : α) : (mustOk (.ok a) : TestM W L α) t = (some a, t) := rfl

@[simp] theorem mustOk_error_run (e : Err) :
    (mustOk (.error e) : TestM W L α) t = (none, { t with failed := true }) := rfl

@[simp] theorem mustErr_ok_bind (a : α) (k : Unit → TestM W L β) :
    (mustErr (.ok a) >>= k) t = (none, { t with failed := true }) := rfl

@[simp] theorem mustErr_error_bind (e : Err) (k : Unit → TestM W L β) :
    (mustErr (.error e : Except Err α) >>= k) t = k () t := rfl

@[simp] theorem mustErr_ok_run (a : α) :
    (mustErr (.ok a) : TestM W L Unit) t = (none, { t with failed := true }) := rfl

@[simp] theorem mustErr_error_run (e : Err) :
    (mustErr (.error e : Except Err α) : TestM W L Unit) t = (some (), t) := rfl

@[simp] theorem NoError_none_bind (k : Unit → TestM W L β) :
    (NoError none >>= k) t = k () t := rfl

@[simp] theorem NoError_some_bind (e : Err) (k : Unit → TestM W L β) :
    (NoError (some e) >>= k) t = (none, { t with failed := true }) := rfl

@[simp] theorem NoError_none_run : (NoError none : TestM W L Unit) t = (some (), t) := rfl

@[simp] theorem NoError_some_run (e : Err) :
    (NoError (some e) : TestM W L Unit) t = (none, { t with failed := true }) := rfl

@[simp] theorem Error_none_bind (k : Unit → TestM W L β) :
    (Error none >>= k) t = (none, { t with failed := true }) := rfl

@[simp] theorem Error_some_bind (e : Err) (k : Unit → TestM W L β) :
    (Error (some e) >>= k) t = k () t := rfl

@[simp] theorem Error_none_run :
    (Error none : TestM W L Unit) t = (none, { t with failed := true }) := rfl

@[simp] theorem Error_some_run (e : Err) :
    (Error (some e) : TestM W L Unit) t = (some (), t) := rfl

@[simp] theorem Equal_bind [DecidableEq α] (a b : α) (k : Unit → TestM W L β) :
    (Equal a b >>= k) t = if a = b then k () t else (none, { t with failed := true }) := by
  unfold Equal
  split <;> rfl

@[simp] theorem Equal_run [DecidableEq α] (a b : α) :
    (Equal a b : TestM W L Unit) t
      = if a = b then (some (), t) else (none, { t with failed := true }) := by
  unfold Equal
  split <;> rfl

@[simp] theorem NotZero_bind [DecidableEq α] (z v : α) (k : Unit → TestM W L β) :
    (NotZero z v >>= k) t = if v = z then (none, { t with failed := true }) else k () t := by
  unfold NotZero
  split <;> rfl

@[simp] theorem NotZero_run [DecidableEq α] (z v : α) :
    (NotZero z v : TestM W L Unit) t
      = if v = z then (none, { t with failed := true }) else (some (), t) := by
  unfold NotZero
  split <;> rfl

@[simp] theorem usingPkg_run (pkg0 : L2) (body : TestM W L2 α) :
    (usingPkg pkg0 body) t =
      ((body { world := t.world, loc := pkg0, failed := t.failed, panicked := t.panicked,
               subs := t.subs }).1,
       { (body { world := t.world, loc := pkg0, failed := t.failed, panicked := t.panicked,
                 subs := t.subs }).2 with loc := t.loc }) := rfl

@[simp] theorem bind_assoc_run (m : TestM W L α) (f : α → TestM W L β) {γ : Type}
    (k : β → TestM W L γ) : ((m >>= f) >>= k) t = (m >>= fun a => f a >>= k) t := by
  simp only [bind_run]
  cases (m t).1 <;> rfl

@[simp] theorem usingPkg_bind (pkg0 : L2) (body : TestM W L2 α) (k : α → TestM W L β) :
    (usingPkg pkg0 body >>= k) t =
      match (body { world := t.world, loc := pkg0, failed := t.failed, panicked := t.panicked,
                    subs := t.subs }).1 with
      | some a => k a
          { (body { world := t.world, loc := pkg0, failed := t.failed, panicked := t.panicked,
                    subs := t.subs }).2 with loc := t.loc }
      | none => (none,
          { (body { world := t.world, loc := pkg0, failed := t.failed, panicked := t.panicked,
                    subs := t.subs }).2 with loc := t.loc }) := rfl

@[simp] theorem Panic_run :
    (Panic : TestM W L α) t = (none, { t with failed := true, panicked := true }) := rfl

@[simp] theorem Panic_bind (k : α → TestM W L β) :
    ((Panic : TestM W L α) >>= k) t = (none, { t with failed := true, panicked := true }) := rfl

end steps

/-- Two bound variables fixed by a pair of equations. -/
@[simp] theorem exists_pair_eq_and {α β : Type} (x : α) (y : β) (P : α → β → Prop) :
    (∃ a b, (x = a ∧ y = b) ∧ P a b) ↔ P x y := by
  constructor
  · rintro ⟨a, b, ⟨rfl, rfl⟩, h⟩
    exact h
  · intro h
    exact ⟨x, y, ⟨rfl, rfl⟩, h⟩

/-! ## `NewSuite` and `Suite.Make` -/

/-- C3, as amended. `NewSuite` returns a suite and no error; `Make` on that suite
returns exactly what one call of the factory returns when there is one, and the
error "missing generator function" with no backend, the world untouched, when
there is none. -/
theorem NewSuite_Make (name : String) (fn : W → Except Err σ × W) (w : W) :
    (NewSuite name (some fn)).2 = none ∧
    (NewSuite name (none : Option (W → Except Err σ × W))).2 = none ∧
    (NewSuite name (some fn)).1.Make w = fn w ∧
    (NewSuite name (none : Option (W → Except Err σ × W))).1.Make w =
      (.error "missing generator function", w) := by
  simp [NewSuite, Suite.Make]

/-- C3, as stated, fails: with a factory that itself returns the error "missing
generator function", `Make` fails with that error and no backend although a
factory was supplied. -/
theorem Make_missing_generator_not_only_if :
    (NewSuite "mem" (some sameMessageFactory)).2 = none ∧
    ((NewSuite "mem" (some sameMessageFactory)).1.Make ()).1
      = .error "missing generator function" ∧
    ((NewSuite "mem" (some sameMessageFactory)).1.gen).isSome = true := by
  simp [NewSuite, Suite.Make, sameMessageFactory]

/-! ## Tables of sub-tests -/

/-- A table of sub-tests, on any `*testing.T`: the test is failed at the end
exactly when it was before or a sub-test does not pass. -/
theorem forRange_Run_run (s : Suite W σ) (name : α → String) (body : α → TestM W L Unit) :
    ∀ (table : List α) (t : T W L),
      ((forRange table fun tt => s.Run (name tt) (body tt)) t).2.bad
        = (t.bad || !allPass body table t.world t.loc) := by
  intro table
  induction table with
  | nil => intro t; simp [allPass]
  | cons tt rest ih =>
    intro t
    have h := ih ((s.Run (name tt) (body tt) t).2)
    simp only [forRange_cons, bind_run]
    cases hp : (body tt (T.fresh t.world t.loc)).2.panicked with
    | true =>
      simp only [T.fresh_eq] at hp
      have hr : (s.Run (name tt) (body tt) t).1 = none := by simp [Suite.Run, hp]
      rw [hr]
      simp [Suite.Run, allPass, passes, hp]
    | false =>
      simp only [T.fresh_eq] at hp
      have hr : (s.Run (name tt) (body tt) t).1 = some () := by simp [Suite.Run, hp]
      rw [hr]
      simp only [h]
      simp only [Suite.Run, allPass, passes, worldAfter, locAfter, T.bad_eq, T.fresh_eq, hp]
      cases t.failed <;> cases t.panicked <;>
        cases (body tt (T.fresh t.world t.loc)).2.failed <;> simp

/-- A table of sub-tests passes exactly when each sub-test does. -/
theorem passes_forRange_Run (s : Suite W σ) (name : α → String) (body : α → TestM W L Unit)
    (table : List α) (w : W) (l : L) :
    passes (forRange table fun tt => s.Run (name tt) (body tt)) w l
      = allPass body table w l := by
  unfold passes
  rw [forRange_Run_run]
  simp

/-- A sub-test of `Suite.Test_Create_No_MkdirAll` passes exactly when `Create` is
rejected on a fresh instance, and leaves the world one call of `Make` later. -/
theorem createNoMkdirAllCase_spec (env : Env σ φ) (s : Suite W σ) (tt : String) (w : W) :
    (passes (createNoMkdirAllCase env s tt) w () = true ↔ createRejected env s tt w) ∧
    worldAfter (createNoMkdirAllCase env s tt) w () = s.nextWorld w := by
  unfold createRejected passes worldAfter createNoMkdirAllCase Suite.nextWorld
  simp
  rcases s.Make w with ⟨_ | pkg, w1⟩ <;> simp
  rcases env.pkg.Parse tt pkg with ⟨_ | pt, p1⟩ <;> simp
  rcases env.pkg.Create pt.Name p1 with ⟨_ | f, p2⟩ <;> simp

/-- C5. With the fixture `App()` at hand, `Suite.Test_Create_No_MkdirAll` passes if
and only if, for each of its four references, on a fresh instance from the
factory `Parse` of the reference succeeds and `Create` of the parsed name, with
no `MkdirAll` before it, returns an error. -/
theorem Test_Create_No_MkdirAll_passes_iff (env : Env σ φ) (s : Suite W σ) (app : AppRef)
    (happ : env.App = .ok app) (w : W) :
    passes (Test_Create_No_MkdirAll env s) w () = true ↔
      createRejected env s "/easy/listening/file.under" w ∧
      createRejected env s (app.Info.ImportPath ++ ":" ++ "/easy/listening/file.under")
        (s.nextWorld w) ∧
      createRejected env s "/easy/listening" (s.nextWorld (s.nextWorld w)) ∧
      createRejected env s (app.Info.ImportPath ++ ":" ++ "/easy/listening")
        (s.nextWorld (s.nextWorld (s.nextWorld w))) := by
  have hd : filepath.Dir "/easy/listening/file.under" = "/easy/listening" := by decide
  have hrun : passes (Test_Create_No_MkdirAll env s) w ()
      = allPass (createNoMkdirAllCase env s) (noMkdirAllTable app.Info.ImportPath) w () := by
    rw [← passes_forRange_Run s (fun tt => tt)]
    simp [passes, Test_Create_No_MkdirAll, happ, mustOk]
  rw [hrun]
  simp only [noMkdirAllTable, hd, allPass, Bool.and_eq_true, Bool.and_true,
    (createNoMkdirAllCase_spec env s _ _).1, (createNoMkdirAllCase_spec env s _ _).2]

/-- Witness of `Test_Create_No_MkdirAll_passes_iff`, on the in-memory backend,
where the scenario passes. -/
theorem Test_Create_No_MkdirAll_passes_iff_witness :
    (mem.env true).App = .ok mem.app ∧
    passes (Test_Create_No_MkdirAll (mem.env true) mem.suite) 0 () = true ∧
    (passes (Test_Create_No_MkdirAll (mem.env true) mem.suite) 0 () = true ↔
      createRejected (mem.env true) mem.suite "/easy/listening/file.under" 0 ∧
      createRejected (mem.env true) mem.suite
        (mem.app.Info.ImportPath ++ ":" ++ "/easy/listening/file.under")
        (mem.suite.nextWorld 0) ∧
      createRejected (mem.env true) mem.suite "/easy/listening"
        (mem.suite.nextWorld (mem.suite.nextWorld 0)) ∧
      createRejected (mem.env true) mem.suite
        (mem.app.Info.ImportPath ++ ":" ++ "/easy/listening")
        (mem.suite.nextWorld (mem.suite.nextWorld (mem.suite.nextWorld 0)))) :=
  ⟨rfl, by decide, Test_Create_No_MkdirAll_passes_iff (mem.env true) mem.suite mem.app rfl 0⟩

/-! ## `Suite.Test_Open_File` -/

/-- A sub-test of `Suite.Test_Open_File` passes exactly when the body is read back,
and leaves the world one call of `Make` later. -/
theorem openFileCase_spec (env : Env σ φ) (s : Suite W σ) (tt : String) (w : W) :
    (passes (openFileCase env s tt) w () = true ↔ readsBack env s tt w) ∧
    worldAfter (openFileCase env s tt) w () = s.nextWorld w := by
  unfold readsBack passes worldAfter openFileCase Suite.nextWorld
  simp
  rcases s.Make w with ⟨_ | pkg, w1⟩ <;> simp
  rcases env.pkg.Parse tt pkg with ⟨_ | pt, p1⟩ <;> simp
  rcases env.pkg.RemoveAll (env.PathString pt) p1 with ⟨_ | _, p2⟩ <;> simp
  rcases env.pkg.MkdirAll (filepath.Dir pt.Name) 493 p2 with ⟨_ | _, p3⟩ <;> simp
  rcases env.pkg.Open tt (env.WriteFile tt ("!" ++ env.PathString pt) 420 p3).2
    with ⟨_ | f, p5⟩ <;> simp
  rcases env.pkg.FilePath f p5 with ⟨fp, p6⟩
  by_cases hfp : pt.Name = fp.Name <;> simp [hfp]
  swap
  · intro h
    exact absurd h.symm hfp
  rcases env.ReadAll f p6 with ⟨_ | b7, p7⟩ <;> simp
  by_cases hb7 : "!" ++ env.PathString pt = b7 <;> simp [hb7]
  swap
  · intro h
    exact absurd h.symm hb7
  subst hb7
  rcases env.ReadFile tt p7 with ⟨_ | b8, p8⟩ <;> simp
  by_cases hb8 : "!" ++ env.PathString pt = b8 <;> simp [hb8]
  swap
  · intro h
    exact absurd h.symm hb8
  subst hb8
  rcases env.pkg.FileClose f p8 with ⟨_ | _, p9⟩ <;> simp

/-- C6. `Suite.Test_Open_File` passes only if, for the bare path and for the
`namespace:path` form of the target, on a fresh instance from the factory, the
bytes written are read back unchanged: after `MkdirAll` of the parent and
`WriteFile` of the body `"!" + pt.String()`, `Open` of the same reference
succeeds, the `Path().Name` of the handle is the parsed name, reading the
handle to the end yields exactly the body, and `ReadFile` of the same reference
yields exactly the body. -/
theorem Test_Open_File_passes_only_if (env : Env σ φ) (s : Suite W σ) (w : W)
    (h : passes (Test_Open_File env s) w () = true) :
    ∃ app, env.App = .ok app ∧
      readsBack env s "/public/index.html" w ∧
      readsBack env s (app.Info.ImportPath ++ ":" ++ "/public/index.html") (s.nextWorld w) := by
  rcases happ : env.App with e | app
  · simp [passes, Test_Open_File, happ, mustOk] at h
  · refine ⟨app, rfl, ?_⟩
    have hrun : passes (Test_Open_File env s) w ()
        = allPass (openFileCase env s) (openFileTable app.Info.ImportPath) w () := by
      rw [← passes_forRange_Run s (fun tt => tt)]
      simp [passes, Test_Open_File, happ, mustOk]
    rw [hrun] at h
    simpa only [openFileTable, allPass, Bool.and_eq_true, Bool.and_true,
      (openFileCase_spec env s _ _).1, (openFileCase_spec env s _ _).2] using h

/-- Witness of `Test_Open_File_passes_only_if`, on the in-memory backend. -/
theorem Test_Open_File_passes_only_if_witness :
    passes (Test_Open_File (mem.env true) mem.suite) 0 () = true ∧
    ∃ app, (mem.env true).App = .ok app ∧
      readsBack (mem.env true) mem.suite "/public/index.html" 0 ∧
      readsBack (mem.env true) mem.suite (app.Info.ImportPath ++ ":" ++ "/public/index.html")
        (mem.suite.nextWorld 0) :=
  ⟨by decide, Test_Open_File_passes_only_if (mem.env true) mem.suite 0 (by decide)⟩

/-! ## Scenarios on one instance -/

/-- A body in the scope of an instance passes exactly when it passes on that
instance. -/
theorem passes_usingPkg (pkg : L2) (body : TestM W L2 Unit) (w : W) (l : L) :
    passes (usingPkg pkg body : TestM W L Unit) w l = passes body w pkg := rfl

/-! ## `Suite.Test_Parse` -/

/-- A sub-test of `Suite.Test_Parse` passes exactly when `Parse` returns the
expected pair, and leaves the instance `Parse` leaves. -/
theorem parseCase_spec (env : Env σ φ) (tt : String × here.Path) (w : W) (pkg : σ) :
    (passes (parseCase env tt : TestM W σ Unit) w pkg = true ↔ parsesTo env tt.1 tt.2 pkg) ∧
    locAfter (parseCase env tt : TestM W σ Unit) w pkg = (env.pkg.Parse tt.1 pkg).2 ∧
    worldAfter (parseCase env tt : TestM W σ Unit) w pkg = w := by
  unfold parsesTo passes locAfter worldAfter parseCase
  simp
  rcases env.pkg.Parse tt.1 pkg with ⟨_ | pt, p1⟩ <;> simp
  by_cases h : tt.2 = pt <;> simp [h]
  intro h2
  exact h h2.symm

/-- C7. For a backend `pkg` from the factory whose `Current` gives the namespace
`ip` and the real root directory `dir`, `Suite.Test_Parse` passes if and only if
`Parse` succeeds on its four inputs and returns `{Pkg: ip, Name:
"/public/index.html"}` for the bare path, for the real path `dir` joined with
it and for `ip + ":" + "/public/index.html"`, and `{Pkg: ip, Name: "/"}` for the
bare namespace `ip`. -/
theorem Test_Parse_passes_iff (env : Env σ φ) (s : Suite W σ) (w : W) (pkg : σ)
    (ip dir : String) (hm : (s.Make w).1 = .ok pkg)
    (hcur : (env.pkg.Current pkg).1.1 = ⟨ip, dir⟩) :
    passes (Test_Parse env s) w () = true ↔
      parsesTo env "/public/index.html" ⟨ip, "/public/index.html"⟩
        (env.pkg.Current pkg).2 ∧
      parsesTo env (filepath.Join dir "/public/index.html") ⟨ip, "/public/index.html"⟩
        (afterParse env ["/public/index.html"] (env.pkg.Current pkg).2) ∧
      parsesTo env (ip ++ ":" ++ "/public/index.html") ⟨ip, "/public/index.html"⟩
        (afterParse env ["/public/index.html", filepath.Join dir "/public/index.html"]
          (env.pkg.Current pkg).2) ∧
      parsesTo env ip ⟨ip, "/"⟩
        (afterParse env ["/public/index.html", filepath.Join dir "/public/index.html",
          ip ++ ":" ++ "/public/index.html"] (env.pkg.Current pkg).2) := by
  have hrun : passes (Test_Parse env s) w ()
      = allPass (parseCase env) (parseTable ⟨ip, dir⟩) (s.Make w).2 (env.pkg.Current pkg).2 := by
    rw [← passes_forRange_Run s (fun tt => tt.1)]
    simp [passes, Test_Parse, hm, hcur]
  rw [hrun]
  simp only [parseTable, allPass, afterParse, List.foldl, Bool.and_eq_true, Bool.and_true,
    (parseCase_spec env _ _ _).1, (parseCase_spec env _ _ _).2.1,
    (parseCase_spec env _ _ _).2.2]

/-- Witness of `Test_Parse_passes_iff`, on the in-memory backend, where the
scenario passes. -/
theorem Test_Parse_passes_iff_witness :
    (mem.suite.Make 0).1 = .ok ⟨[⟨"/", true, ""⟩]⟩ ∧
    ((mem.env true).pkg.Current ⟨[⟨"/", true, ""⟩]⟩).1.1 = ⟨"app", "/src"⟩ ∧
    passes (Test_Parse (mem.env true) mem.suite) 0 () = true ∧
    (passes (Test_Parse (mem.env true) mem.suite) 0 () = true ↔
      parsesTo (mem.env true) "/public/index.html" ⟨"app", "/public/index.html"⟩
        (((mem.env true).pkg.Current ⟨[⟨"/", true, ""⟩]⟩).2) ∧
      parsesTo (mem.env true) (filepath.Join "/src" "/public/index.html")
        ⟨"app", "/public/index.html"⟩
        (afterParse (mem.env true) ["/public/index.html"]
          ((mem.env true).pkg.Current ⟨[⟨"/", true, ""⟩]⟩).2) ∧
      parsesTo (mem.env true) ("app" ++ ":" ++ "/public/index.html")
        ⟨"app", "/public/index.html"⟩
        (afterParse (mem.env true)
          ["/public/index.html", filepath.Join "/src" "/public/index.html"]
          ((mem.env true).pkg.Current ⟨[⟨"/", true, ""⟩]⟩).2) ∧
      parsesTo (mem.env true) "app" ⟨"app", "/"⟩
        (afterParse (mem.env true)
          ["/public/index.html", filepath.Join "/src" "/public/index.html",
            "app" ++ ":" ++ "/public/index.html"]
          ((mem.env true).pkg.Current ⟨[⟨"/", true, ""⟩]⟩).2)) :=
  ⟨rfl, rfl, by decide,
    Test_Parse_passes_iff (mem.env true) mem.suite 0 ⟨[⟨"/", true, ""⟩]⟩ "app" "/src" rfl rfl⟩

/-! ## `Suite.Test_Walk` -/

/-- When the visitor of `Suite.Test_Walk` refuses no call of a walk, what it has
appended to `act` is the paths it was handed, in visiting order. -/
theorem visitCalls_actVisit (calls : List WalkCall) :
    ∀ act : Strings, (visitCalls actVisit calls act).1.1 = none →
      (visitCalls actVisit calls act).1.2.getD []
        = act.getD [] ++ (visitCalls actVisit calls act).2 := by
  induction calls with
  | nil => intro act _; simp [visitCalls]
  | cons c cs ih =>
    intro act h
    rcases c with ⟨path, info, err⟩
    cases err with
    | some e => simp [visitCalls, actVisit] at h
    | none =>
      simp only [visitCalls, actVisit] at h ⊢
      rw [ih _ h]
      simp [Strings.append]

/-- When the walk of a backend ends without an error, the paths it handed to the
visitor of `Suite.Test_Walk` are the elements of `act`. -/
theorem pkgWalk_handed (env : Env σ φ) (root : String) (pkg : σ)
    (h : (pkgWalk env root pkg).1.1 = none) :
    (env.pkg.Walk root pkg).handed actVisit none = (pkgWalk env root pkg).1.2.getD [] := by
  unfold pkgWalk Walking.run at h
  unfold pkgWalk Walking.run Walking.handed
  rcases hv : (visitCalls actVisit (env.pkg.Walk root pkg).calls none).1.1 with _ | e
  · have := visitCalls_actVisit (env.pkg.Walk root pkg).calls none hv
    simp only [hv]
    simpa using this.symm
  · simp [hv] at h

/-- A sub-test of `Suite.Test_Walk` passes exactly when the temporary directory
is made and written and both walks give the list of the fixture; it leaves the
instance the two walks leave. -/
theorem walkCase_spec (env : Env σ φ) (tt : String × Strings) (w : W) (pkg : σ) :
    (passes (walkCase env tt : TestM W σ Unit) w pkg = true ↔
      ∃ tdir, env.TempDir = .ok tdir ∧ env.WriteFolder tdir = none ∧
        (goWalk env tdir (filepath.Join tdir tt.1) pkg).1 = (none, tt.2) ∧
        (pkgWalk env tt.1 (goWalk env tdir (filepath.Join tdir tt.1) pkg).2).1
          = (none, tt.2)) ∧
    (∀ tdir, env.TempDir = .ok tdir →
      passes (walkCase env tt : TestM W σ Unit) w pkg = true →
      locAfter (walkCase env tt : TestM W σ Unit) w pkg = afterWalkCase env tdir tt.1 pkg) ∧
    worldAfter (walkCase env tt : TestM W σ Unit) w pkg = w := by
  unfold passes locAfter worldAfter walkCase afterWalkCase
  rcases env.TempDir with _ | tdir <;> simp
  rcases env.WriteFolder tdir with _ | _ <;> simp
  rcases goWalk env tdir (filepath.Join tdir tt.1) pkg with ⟨⟨_ | _, goact⟩, p1⟩ <;> simp
  by_cases hgo : tt.2 = goact <;> simp [hgo]
  swap
  · intro h
    exact absurd h.symm hgo
  subst hgo
  rcases pkgWalk env tt.1 p1 with ⟨⟨_ | _, act⟩, p2⟩ <;> simp
  by_cases hact : tt.2 = act <;> simp [hact]
  intro h
  exact absurd h.symm hact

/-- The two walks of a sub-test of `Suite.Test_Walk` that passes agree. -/
theorem walkAgrees_of_walks (env : Env σ φ) (tdir root : String) (exp : Strings) (pkg : σ)
    (hgo : (goWalk env tdir (filepath.Join tdir root) pkg).1 = (none, exp))
    (hact : (pkgWalk env root (goWalk env tdir (filepath.Join tdir root) pkg).2).1
      = (none, exp)) :
    walkAgrees env tdir root exp pkg := by
  refine ⟨hgo, hact, ?_⟩
  rw [pkgWalk_handed env root _ (by rw [hact]), hact, hgo]

/-- C8. `Suite.Test_Walk` passes only if, on the instance loaded from the fixture
and for each of the walk roots `/` and `/public`, the sequence of paths that the
`Walk` of the backend hands to the visitor, in visiting order, is equal to the
sequence obtained from the real-filesystem walk of the equivalent directory,
each real path mapped through `Parse` to its reference string, both being the
list of the fixture for that root. -/
theorem Test_Walk_passes_only_if (env : Env σ φ) (s : Suite W σ) (w : W)
    (h : passes (Test_Walk env s) w () = true) :
    ∃ pkg p0 app tdir, (s.Make w).1 = .ok pkg ∧ env.LoadFolder pkg = (none, p0) ∧
      env.App = .ok app ∧ env.TempDir = .ok tdir ∧
      walkAgrees env tdir "/" app.Paths.Root p0 ∧
      walkAgrees env tdir "/public" app.Paths.Public (afterWalkCase env tdir "/" p0) := by
  rcases hm : (s.Make w).1 with e | pkg
  · simp [passes, Test_Walk, hm] at h
  rcases hl : env.LoadFolder pkg with ⟨_ | e, p0⟩
  swap
  · simp [passes, Test_Walk, hm, hl] at h
  rcases happ : env.App with e | app
  · simp [passes, Test_Walk, hm, hl, happ] at h
  have hrun : passes (Test_Walk env s) w ()
      = allPass (walkCase env) (walkTable app) (s.Make w).2 p0 := by
    rw [← passes_forRange_Run s (fun tt => tt.1)]
    simp [passes, Test_Walk, hm, hl, happ]
  rw [hrun] at h
  simp only [walkTable, allPass, Bool.and_eq_true, Bool.and_true] at h
  obtain ⟨h1, h2⟩ := h
  obtain ⟨tdir, htd, -, hgo1, hact1⟩ := (walkCase_spec env _ _ _).1.mp h1
  rw [(walkCase_spec env _ _ _).2.1 tdir htd h1] at h2
  obtain ⟨tdir2, htd2, -, hgo2, hact2⟩ := (walkCase_spec env _ _ _).1.mp h2
  have ht : tdir2 = tdir := by
    rw [htd] at htd2
    exact (Except.ok.inj htd2).symm
  subst ht
  exact ⟨pkg, p0, app, tdir2, rfl, hl, rfl, htd, walkAgrees_of_walks env _ _ _ _ hgo1 hact1,
    walkAgrees_of_walks env _ _ _ _ hgo2 hact2⟩

/-- Witness of `Test_Walk_passes_only_if`, on the in-memory backend. -/
theorem Test_Walk_passes_only_if_witness :
    passes (Test_Walk (mem.env true) mem.suite) 0 () = true ∧
    ∃ pkg p0 app tdir, (mem.suite.Make 0).1 = .ok pkg ∧
      (mem.env true).LoadFolder pkg = (none, p0) ∧
      (mem.env true).App = .ok app ∧ (mem.env true).TempDir = .ok tdir ∧
      walkAgrees (mem.env true) tdir "/" app.Paths.Root p0 ∧
      walkAgrees (mem.env true) tdir "/public" app.Paths.Public
        (afterWalkCase (mem.env true) tdir "/" p0) :=
  ⟨by decide, Test_Walk_passes_only_if (mem.env true) mem.suite 0 (by decide)⟩

/-! ## `Suite.Test_Remove` and `Suite.Test_RemoveAll` -/

/-- The first lines of the two removal scenarios either stop the test or give
the namespace of `Current`, one call of `Make` later. -/
theorem currentImportPath_bind (env : Env σ φ) (s : Suite W σ)
    (k : String → TestM W Unit Unit) (w : W) :
    passes (currentImportPath env s >>= k) w () = true →
      ∃ pkg, (s.Make w).1 = .ok pkg ∧
        passes (currentImportPath env s >>= k) w ()
          = passes (k (env.pkg.Current pkg).1.1.ImportPath) (s.nextWorld w) () := by
  unfold passes currentImportPath Suite.nextWorld
  simp
  rcases s.Make w with ⟨_ | pkg, w1⟩ <;> simp
  rcases env.pkg.Current pkg with ⟨⟨cur, _ | e⟩, p1⟩ <;> simp

/-- A sub-test of `Suite.Test_Remove` that passes has seen `Stat` succeed, `Remove`
succeed and `Stat` fail; it leaves the world one call of `Make` later. -/
theorem removeCase_spec (env : Env σ φ) (s : Suite W σ) (tt : String) (w : W) :
    (passes (removeCase env s tt) w () = true →
      statRemoveStat env s env.pkg.Remove tt w) ∧
    worldAfter (removeCase env s tt) w () = s.nextWorld w := by
  unfold statRemoveStat passes worldAfter removeCase Suite.nextWorld
  simp
  rcases s.Make w with ⟨_ | pkg, w1⟩ <;> simp
  rcases env.LoadFolder pkg with ⟨_ | _, p1⟩ <;> simp
  rcases env.pkg.Stat tt p1 with ⟨_ | fi, p2⟩ <;> simp
  rcases env.pkg.Remove tt p2 with ⟨_ | _, p3⟩ <;> simp
  rcases env.pkg.Stat tt p3 with ⟨_ | fi2, p4⟩ <;> simp
  rcases env.pkg.Remove "unknown" p4 with ⟨_ | _, p5⟩ <;> simp

/-- A sub-test of `Suite.Test_RemoveAll` passes exactly when `Stat` succeeds,
`RemoveAll` succeeds and `Stat` fails; it leaves the world one call of `Make`
later. -/
theorem removeAllCase_spec (env : Env σ φ) (s : Suite W σ) (tt : String) (w : W) :
    (passes (removeAllCase env s tt) w () = true ↔
      statRemoveStat env s env.pkg.RemoveAll tt w) ∧
    worldAfter (removeAllCase env s tt) w () = s.nextWorld w := by
  unfold statRemoveStat passes worldAfter removeAllCase Suite.nextWorld
  simp
  rcases s.Make w with ⟨_ | pkg, w1⟩ <;> simp
  rcases env.LoadFolder pkg with ⟨_ | _, p1⟩ <;> simp
  rcases env.pkg.Stat tt p1 with ⟨_ | fi, p2⟩ <;> simp
  rcases env.pkg.RemoveAll tt p2 with ⟨_ | _, p3⟩ <;> simp
  rcases env.pkg.Stat tt p3 with ⟨_ | fi2, p4⟩ <;> simp

/-- C9. The removal scenarios pass only if, for the bare path and for the
`namespace:path` form of the target, on a fresh instance loaded from the
fixture, `Stat` of the target succeeds before the removal, the removal itself
succeeds, and `Stat` of the same target fails right after it: `Suite.Test_Remove`
for the file `/public/images/img1.png`, `Suite.Test_RemoveAll` for the directory
`/public`. -/
theorem Test_Remove_RemoveAll_pass_only_if (env : Env σ φ) (s : Suite W σ) (w : W) :
    (passes (Test_Remove env s) w () = true →
      ∃ pkg, (s.Make w).1 = .ok pkg ∧
        statRemoveStat env s env.pkg.Remove "/public/images/img1.png" (s.nextWorld w) ∧
        statRemoveStat env s env.pkg.Remove
          ((env.pkg.Current pkg).1.1.ImportPath ++ ":/public/images/img1.png")
          (s.nextWorld (s.nextWorld w))) ∧
    (passes (Test_RemoveAll env s) w () = true →
      ∃ pkg, (s.Make w).1 = .ok pkg ∧
        statRemoveStat env s env.pkg.RemoveAll "/public" (s.nextWorld w) ∧
        statRemoveStat env s env.pkg.RemoveAll
          ((env.pkg.Current pkg).1.1.ImportPath ++ ":/public")
          (s.nextWorld (s.nextWorld w))) := by
  constructor
  · intro h
    obtain ⟨pkg, hpkg, hip⟩ := currentImportPath_bind env s
      (fun ip => forRange (removeTable ip) fun tt => s.Run tt (removeCase env s tt)) w h
    refine ⟨pkg, hpkg, ?_⟩
    have h2 : allPass (removeCase env s) (removeTable (env.pkg.Current pkg).1.1.ImportPath)
        (s.nextWorld w) () = true := by
      rw [← passes_forRange_Run s (fun tt => tt), ← hip]
      exact h
    simp only [removeTable, allPass, Bool.and_eq_true, Bool.and_true,
      (removeCase_spec env s _ _).2] at h2
    exact ⟨(removeCase_spec env s _ _).1 h2.1, (removeCase_spec env s _ _).1 h2.2⟩
  · intro h
    obtain ⟨pkg, hpkg, hip⟩ := currentImportPath_bind env s
      (fun ip => forRange (removeAllTable ip) fun tt => s.Run tt (removeAllCase env s tt)) w h
    refine ⟨pkg, hpkg, ?_⟩
    have h2 : allPass (removeAllCase env s)
        (removeAllTable (env.pkg.Current pkg).1.1.ImportPath) (s.nextWorld w) () = true := by
      rw [← passes_forRange_Run s (fun tt => tt), ← hip]
      exact h
    simpa only [removeAllTable, allPass, Bool.and_eq_true, Bool.and_true,
      (removeAllCase_spec env s _ _).1, (removeAllCase_spec env s _ _).2] using h2

/-- Witness of `Test_Remove_RemoveAll_pass_only_if`, on the in-memory backend, where
both scenarios pass. -/
theorem Test_Remove_RemoveAll_pass_only_if_witness :
    (passes (Test_Remove (mem.env true) mem.suite) 0 () = true ∧
      ∃ pkg, (mem.suite.Make 0).1 = .ok pkg ∧
        statRemoveStat (mem.env true) mem.suite (mem.env true).pkg.Remove
          "/public/images/img1.png" (mem.suite.nextWorld 0) ∧
        statRemoveStat (mem.env true) mem.suite (mem.env true).pkg.Remove
          (((mem.env true).pkg.Current pkg).1.1.ImportPath ++ ":/public/images/img1.png")
          (mem.suite.nextWorld (mem.suite.nextWorld 0))) ∧
    (passes (Test_RemoveAll (mem.env true) mem.suite) 0 () = true ∧
      ∃ pkg, (mem.suite.Make 0).1 = .ok pkg ∧
        statRemoveStat (mem.env true) mem.suite (mem.env true).pkg.RemoveAll "/public"
          (mem.suite.nextWorld 0) ∧
        statRemoveStat (mem.env true) mem.suite (mem.env true).pkg.RemoveAll
          (((mem.env true).pkg.Current pkg).1.1.ImportPath ++ ":/public")
          (mem.suite.nextWorld (mem.suite.nextWorld 0))) :=
  ⟨⟨by decide,
      (Test_Remove_RemoveAll_pass_only_if (mem.env true) mem.suite 0).1 (by decide)⟩,
    ⟨by decide,
      (Test_Remove_RemoveAll_pass_only_if (mem.env true) mem.suite 0).2 (by decide)⟩⟩

/-! ## `Suite.Test_Stat_Error` -/

/-- A sub-test of `Suite.Test_Stat_Error` whose reference `Parse` rejects fails. -/
theorem statErrorCase_parse_error (env : Env σ φ) (tt : String) (w : W) (pkg : σ) (e : Err)
    (h : (env.pkg.Parse tt pkg).1 = .error e) :
    passes (statErrorCase env tt : TestM W σ Unit) w pkg = false := by
  unfold passes statErrorCase
  simp [h]

/-- C10, as amended. The suite settles the question: a backend whose `Parse`
returns an error for the reference `<namespace>:` with an empty path fails
`Suite.Test_Stat_Error`, whose third sub-test asserts that `Parse` of that
reference succeeds. -/
theorem Test_Stat_Error_fails_of_parse_error (env : Env σ φ) (s : Suite W σ) (w : W)
    (app : AppRef) (happ : env.App = .ok app)
    (hparse : ∀ pkg, ∃ e, (env.pkg.Parse (app.Info.ImportPath ++ ":") pkg).1 = .error e) :
    passes (Test_Stat_Error env s) w () = false := by
  rcases hm : (s.Make w).1 with e | pkg
  · simp [passes, Test_Stat_Error, hm]
  · have hrun : passes (Test_Stat_Error env s) w ()
        = allPass (statErrorCase env) (statErrorTable app.Info.ImportPath) (s.Make w).2 pkg := by
      rw [← passes_forRange_Run s (fun tt => tt)]
      simp [passes, Test_Stat_Error, hm, happ]
    rw [hrun]
    simp only [statErrorTable, allPass]
    obtain ⟨e, he⟩ := hparse
      (locAfter (statErrorCase env app.Info.ImportPath)
        (worldAfter (statErrorCase env "/dontexist") (s.Make w).2 pkg)
        (locAfter (statErrorCase env "/dontexist") (s.Make w).2 pkg))
    rw [statErrorCase_parse_error env _ _ _ e he]
    simp

/-- Witness of `Test_Stat_Error_fails_of_parse_error`, on the in-memory backend
that rejects a reference with an empty path. -/
theorem Test_Stat_Error_fails_of_parse_error_witness :
    (mem.env false).App = .ok mem.app ∧
    (∀ pkg, ∃ e,
      ((mem.env false).pkg.Parse (mem.app.Info.ImportPath ++ ":") pkg).1 = .error e) ∧
    passes (Test_Stat_Error (mem.env false) mem.suite) 0 () = false :=
  ⟨rfl, fun _ => ⟨_, rfl⟩,
    Test_Stat_Error_fails_of_parse_error (mem.env false) mem.suite 0 mem.app rfl
      (fun _ => ⟨_, rfl⟩)⟩

/-- C10, as stated, fails: the in-memory backend that returns a parse error for
`app:`, and passes the twelve other scenarios, fails `Suite.Test_Stat_Error`. -/
theorem strict_backend_fails_Test_Stat_Error :
    (∀ pkg, ((mem.env false).pkg.Parse (mem.ip ++ ":") pkg).1
      = .error "could not parse app:") ∧
    (mem.suite.runTest (suiteMethods (mem.env false)) 0).subs =
      [ ("mem/Test_Create", true), ("mem/Test_Create_No_MkdirAll", true),
        ("mem/Test_Current", true), ("mem/Test_Info", true), ("mem/Test_MkdirAll", true),
        ("mem/Test_Open_File", true), ("mem/Test_Parse", true), ("mem/Test_Remove", true),
        ("mem/Test_RemoveAll", true), ("mem/Test_Stat_Dir", true),
        ("mem/Test_Stat_Error", false), ("mem/Test_Stat_File", true),
        ("mem/Test_Walk", true) ] ∧
    passes (Test_Stat_Error (mem.env false) mem.suite) 0 () = false :=
  ⟨fun _ => rfl, by decide, by decide⟩

/-! ## Isolation of the scenarios -/

/-- Without the hypothesis on the factory the order matters: with a factory that
gives an instance on its first call only, the scenario that runs first passes
and the other one fails. -/
theorem order_matters_without_fresh_factory :
    (mem.onceSuite.runScenarios
        [("Test_Current", Test_Current (mem.env true)), ("Test_Info", Test_Info (mem.env true))]
        0).subs
      = [("once/Test_Current", true), ("once/Test_Info", false)] ∧
    (mem.onceSuite.runScenarios
        [("Test_Info", Test_Info (mem.env true)), ("Test_Current", Test_Current (mem.env true))]
        0).subs
      = [("once/Test_Info", true), ("once/Test_Current", false)] := by
  decide
end pkgtest
